import Mathlib

/-!
Shallow embedding of the micorCourses backend (learning-management REST
backend): the enrollment/progress/certificate lifecycle and the course
moderation workflow, translated from the controllers and Mongoose models
of the repository.  Identifiers keep the source names where Lean allows.

Conventions of the embedding:
* Mongo ObjectIds become `Nat`.
* A controller is a function `DB → args → DB × Api α`: the returned `DB`
  is the persistent state after the call (early returns leave it
  untouched), and `Api α` is the HTTP outcome (`ApiError` carries the
  status code and the message literal of the source).
* JavaScript `Math.round` on the non-negative rationals that arise here
  is round-half-up, embedded exactly on naturals by `jsRoundPct`.
* External collaborators (S3 upload, the Mongo write of a new
  Certificate document) can fail for reasons outside the data model;
  such an outcome is passed in as a `Bool` parameter, mirroring the
  `await`ed promise either resolving or rejecting.
-/

namespace Micro

/-- Course status enum of the Course schema:
`draft | submitted | published | rejected | pending_review`. -/
inductive CourseStatus where
  | draft
  | submitted
  | published
  | rejected
  | pendingReview
deriving DecidableEq, Repr

/-- The string form of a status, as it appears interpolated into
response messages. -/
def CourseStatus.str : CourseStatus → String
  | .draft => "draft"
  | .submitted => "submitted"
  | .published => "published"
  | .rejected => "rejected"
  | .pendingReview => "pending_review"

/-- A course thumbnail (`{url, publicId}` in the Course schema). -/
structure Thumbnail where
  url : String
  publicId : String
deriving DecidableEq, Repr

/-- Course document (Course schema): the fields the moderation workflow
and the enrollment engine read and write. -/
structure Course where
  id : Nat
  title : String
  description : String
  shortDescription : String
  category : String
  level : String
  price : Nat
  duration : Nat
  creator : Nat
  status : CourseStatus
  isActive : Bool
  enrollmentCount : Nat
  rejectionReason : Option String
  requiresReapproval : Bool
  modificationReason : Option String
  thumbnail : Option Thumbnail
  reviewedBy : Option Nat
  tags : List String
  requirements : List String
  outcomes : List String
deriving DecidableEq, Repr

/-- Lesson document (Lesson schema): `order` is a positive integer,
`isActive` is the soft-delete flag. -/
structure Lesson where
  id : Nat
  course : Nat
  order : Nat
  duration : Nat
  isActive : Bool
deriving DecidableEq, Repr

/-- One entry of `user.enrolledCourses` (User schema subdocument). -/
structure Enrollment where
  course : Nat
  enrolledAt : Nat
  progress : Nat
  completedLessons : List Nat
  certificateIssued : Bool
  certificateHash : Option String
deriving DecidableEq, Repr

/-- User document (User schema): the fields the enrollment engine reads. -/
structure User where
  id : Nat
  name : String
  role : String
  isBlocked : Bool
  accountStatus : String
  restrictedCourses : List Nat
  enrolledCourses : List Enrollment
deriving DecidableEq, Repr

/-- Certificate document (Certificate schema), as built by
`Certificate.generateCertificate`. -/
structure Certificate where
  serialHash : String
  learner : Nat
  course : Nat
  learnerName : String
  courseTitle : String
  issuedBy : Nat
  totalLessons : Nat
  courseDuration : Nat
  isValid : Bool
deriving DecidableEq, Repr

/-- The persistent store: the four Mongo collections the core touches. -/
structure DB where
  users : List User
  courses : List Course
  lessons : List Lesson
  certificates : List Certificate
deriving DecidableEq, Repr

/-- An HTTP error response `res.status(status).json({success:false, message})`. -/
structure ApiError where
  status : Nat
  message : String
deriving DecidableEq, Repr

/-- Outcome of a controller call. -/
abbrev Api (α : Type) := Except ApiError α

/-- `Model.findById` on the users collection. -/
def DB.findUser (db : DB) (uid : Nat) : Option User :=
  db.users.find? (fun u => u.id == uid)

/-- `Model.findById` on the courses collection. -/
def DB.findCourse (db : DB) (cid : Nat) : Option Course :=
  db.courses.find? (fun c => c.id == cid)

/-- Persist a modified user document (`user.save()`), replacing the
stored document with the same id. -/
def DB.saveUser (db : DB) (u : User) : DB :=
  { db with users := db.users.map (fun x => if x.id == u.id then u else x) }

/-- Persist a modified course document (`course.save()`). -/
def DB.saveCourse (db : DB) (c : Course) : DB :=
  { db with courses := db.courses.map (fun x => if x.id == c.id then c else x) }

/-- The enrollment of a user for a course, as the controllers look it up:
`user.enrolledCourses.find(e => e.course.toString() === courseId)`. -/
def DB.enrollmentOf (db : DB) (uid cid : Nat) : Option Enrollment :=
  match db.findUser uid with
  | none => none
  | some u => u.enrolledCourses.find? (fun e => e.course == cid)

/-- In-place mutation of the first enrollment matching the course, as JS
does through the object reference returned by `find`. -/
def updateEnrollment (es : List Enrollment) (cid : Nat)
    (f : Enrollment → Enrollment) : List Enrollment :=
  match es with
  | [] => []
  | e :: rest =>
    if e.course == cid then f e :: rest
    else e :: updateEnrollment rest cid f

/-- All lessons of a course, the `courseSchema.virtual('lessons')`
populate: it matches on the `course` foreign field only, with **no**
`isActive` condition. -/
def DB.lessonsOf (db : DB) (cid : Nat) : List Lesson :=
  db.lessons.filter (fun l => l.course == cid)

/-- The active lessons of a course
(`Lesson.find({course, isActive:true})`). -/
def DB.activeLessonsOf (db : DB) (cid : Nat) : List Lesson :=
  db.lessons.filter (fun l => l.course == cid && l.isActive)

/-- `Math.round((completed / total) * 100)` for naturals with
`total > 0`: exact round-half-up of `100 * completed / total`. -/
def jsRoundPct (completed total : Nat) : Nat :=
  (200 * completed + total) / (2 * total)

/-- Payload of a successful `completeLesson` response. -/
structure CompleteLessonData where
  lessonId : Nat
  progress : Nat
  courseCompleted : Bool
  certificateIssued : Bool
deriving DecidableEq, Repr

/-- `user.save()` rejecting with a Mongoose ValidationError: the User
schema bounds `enrolledCourses.progress` by `min:0, max:100`, so a save
with progress above 100 rejects and `asyncHandler` forwards the error. -/
def userValidationError : ApiError :=
  ⟨500, "User validation failed: enrolledCourses.progress above maximum"⟩

/-- `TypeError` from dereferencing a document that `findById` returned
as `null`; `asyncHandler` forwards it to the error middleware. -/
def nullDerefError : ApiError :=
  ⟨500, "TypeError: cannot read properties of null"⟩

/-- `completeLesson` (learnerController): POST
/api/learner/courses/:courseId/lessons/:lessonId/complete.

`certSaveOk` is the outcome of the `await`s inside
`Certificate.generateCertificate` (the external Mongo write of the new
certificate document); `serialHash` is the digest the issuer computes
from `(learnerId, courseId, Date.now())` via `crypto.createHash`, an
external primitive. -/
def completeLesson (db : DB) (userId courseId lessonId : Nat)
    (certSaveOk : Bool) (serialHash : String) : DB × Api CompleteLessonData :=
  match db.findUser userId with
  | none => (db, .error nullDerefError)
  | some user =>
    match user.enrolledCourses.find? (fun e => e.course == courseId) with
    | none => (db, .error ⟨404, "You are not enrolled in this course"⟩)
    | some enrollment =>
      -- Lesson.findOne({_id: lessonId, course: courseId, isActive: true})
      match db.lessons.find? (fun l =>
          l.id == lessonId && l.course == courseId && l.isActive) with
      | none => (db, .error ⟨404, "Lesson not found"⟩)
      | some _lesson =>
        if enrollment.completedLessons.contains lessonId then
          (db, .error ⟨400, "Lesson already completed"⟩)
        else
          -- enrollment.completedLessons.push(lessonId)
          let completed := enrollment.completedLessons ++ [lessonId]
          -- Course.findById(courseId).populate('lessons')
          match db.findCourse courseId with
          | none => (db, .error nullDerefError)
          | some course =>
            let totalLessons := (db.lessonsOf courseId).length
            let progress :=
              if totalLessons > 0 then jsRoundPct completed.length totalLessons
              else 0
            -- certificate issuance at 100%, errors swallowed by try/catch
            let issuing := progress == 100 && !enrollment.certificateIssued
            let db1 :=
              if issuing && certSaveOk then
                { db with certificates := db.certificates ++
                  [{ serialHash := serialHash
                     learner := userId
                     course := courseId
                     learnerName := user.name
                     courseTitle := course.title
                     issuedBy := course.creator
                     totalLessons := (db.activeLessonsOf courseId).length
                     courseDuration := course.duration
                     isValid := true }] }
              else db
            let enrollment2 :=
              if issuing && certSaveOk then
                { enrollment with
                    completedLessons := completed
                    progress := progress
                    certificateIssued := true
                    certificateHash := some serialHash }
              else
                { enrollment with
                    completedLessons := completed
                    progress := progress }
            if progress > 100 then
              -- user.save() rejects: schema validator max 100 on progress
              (db1, .error userValidationError)
            else
              let user2 := { user with
                enrolledCourses :=
                  updateEnrollment user.enrolledCourses courseId
                    (fun _ => enrollment2) }
              (db1.saveUser user2,
               .ok { lessonId := lessonId
                     progress := progress
                     courseCompleted := progress == 100
                     certificateIssued := enrollment2.certificateIssued })

/-- `enrollInCourse` (learnerController): POST
/api/learner/courses/:id/enroll.  `now` is `new Date()`. -/
def enrollInCourse (db : DB) (userId courseId now : Nat) : DB × Api Nat :=
  match db.findUser userId with
  | none => (db, .error nullDerefError)
  | some user =>
    if user.isBlocked || user.accountStatus == "blocked" then
      (db, .error ⟨403, "Your account is blocked. Please contact support."⟩)
    else if user.restrictedCourses.contains courseId then
      (db, .error ⟨403, "You are restricted from enrolling in this course"⟩)
    else
      match db.findCourse courseId with
      | none => (db, .error ⟨404, "Course not found"⟩)
      | some course =>
        if course.status != .published then
          (db, .error ⟨400, "Course is not available for enrollment"⟩)
        else if user.enrolledCourses.any (fun e => e.course == courseId) then
          (db, .error ⟨400, "You are already enrolled in this course"⟩)
        else
          let user2 := { user with
            enrolledCourses := user.enrolledCourses ++
              [{ course := courseId
                 enrolledAt := now
                 progress := 0
                 completedLessons := []
                 certificateIssued := false
                 certificateHash := none }] }
          let db2 := db.saveUser user2
          -- course.updateEnrollmentCount(): full recount of users with
          -- an enrolledCourses entry for this course, then save
          let count := (db2.users.filter (fun u =>
            u.enrolledCourses.any (fun e => e.course == courseId))).length
          let db3 := db2.saveCourse { course with enrollmentCount := count }
          (db3, .ok 201)

/-- The request body of a course update; `none` is an absent field. -/
structure UpdateCourseBody where
  title : Option String
  description : Option String
  shortDescription : Option String
  category : Option String
  level : Option String
  price : Option Nat
  tags : Option (List String)
  requirements : Option (List String)
  outcomes : Option (List String)
deriving DecidableEq, Repr

/-- JS truthiness of a possibly-absent string field:
`if (title) ...` is false for `undefined` and for the empty string. -/
def jsTruthy : Option String → Bool
  | none => false
  | some s => !s.isEmpty

/-- The field assignments shared by both course-update controllers
(`if (title) course.title = title.trim();` and so on); the
assignments touch pairwise distinct fields, so the sequence of
conditional mutations equals this single conditional record update. -/
def applyCourseBody (c : Course) (b : UpdateCourseBody) : Course :=
  { c with
    title := if jsTruthy b.title then (b.title.getD "").trim else c.title
    description :=
      if jsTruthy b.description then (b.description.getD "").trim
      else c.description
    shortDescription :=
      if jsTruthy b.shortDescription then (b.shortDescription.getD "").trim
      else c.shortDescription
    category := if jsTruthy b.category then b.category.getD "" else c.category
    level := if jsTruthy b.level then b.level.getD "" else c.level
    price := match b.price with
      | some p => p
      | none => c.price
    tags := match b.tags with
      | some ts => ts.map String.trim
      | none => c.tags
    requirements := match b.requirements with
      | some rs => rs.map String.trim
      | none => c.requirements
    outcomes := match b.outcomes with
      | some os => os.map String.trim
      | none => c.outcomes }

/-- `updateCourse` (creatorController): PUT /api/creator/courses/:id.
`file` is an uploaded thumbnail, `uploadOk` the outcome of the external
S3 upload. -/
def updateCourse (db : DB) (userId courseId : Nat) (body : UpdateCourseBody)
    (file : Option Thumbnail) (uploadOk : Bool) : DB × Api Course :=
  match db.findCourse courseId with
  | none => (db, .error ⟨404, "Course not found"⟩)
  | some course =>
    if course.creator != userId then
      (db, .error ⟨403, "Not authorized to update this course"⟩)
    else
      let isPublishedCourse := course.status == .published
      let c1 := applyCourseBody course body
      let thumbRes : Api Course :=
        match file with
        | none => .ok c1
        | some f =>
          if uploadOk then .ok { c1 with thumbnail := some f }
          else .error ⟨500, "Error uploading thumbnail"⟩
      match thumbRes with
      | .error e => (db, .error e)
      | .ok c2 =>
        let c3 :=
          if c2.status == .rejected then
            { c2 with status := .draft, rejectionReason := none }
          else c2
        -- If updating a published course, mark for re-approval
        let coreEdited := jsTruthy body.title || jsTruthy body.description ||
          jsTruthy body.category || jsTruthy body.level
        let c4 :=
          if isPublishedCourse && coreEdited then
            { c3 with
                status := .pendingReview
                requiresReapproval := true
                modificationReason :=
                  some "Course content modified - requires re-approval" }
          else c3
        (db.saveCourse c4, .ok c4)

/-- `updateCourse` (courseController): PUT /api/courses/:id.  Unlike the
creator-route variant it refuses to touch a published course for
non-admins and has no thumbnail handling. -/
def courseCtrlUpdateCourse (db : DB) (userId : Nat) (userRole : String)
    (courseId : Nat) (body : UpdateCourseBody) : DB × Api Course :=
  match db.findCourse courseId with
  | none => (db, .error ⟨404, "Course not found"⟩)
  | some course =>
    if userRole != "admin" && course.creator != userId then
      (db, .error ⟨403, "Not authorized to update this course"⟩)
    else if course.status == .published && userRole != "admin" then
      (db, .error ⟨400, "Cannot update published course. Please contact admin."⟩)
    else
      let c1 := applyCourseBody course body
      -- If course was rejected and being updated, reset status to draft
      let c2 :=
        if c1.status == .rejected then
          { c1 with status := .draft, rejectionReason := none }
        else c1
      (db.saveCourse c2, .ok c2)

/-- `submitCourse` (creatorController): POST
/api/creator/courses/:id/submit. -/
def submitCourse (db : DB) (userId courseId : Nat) : DB × Api Course :=
  match db.findCourse courseId with
  | none => (db, .error ⟨404, "Course not found"⟩)
  | some course =>
    if course.creator != userId then
      (db, .error ⟨403, "Not authorized to submit this course"⟩)
    else
      -- Lesson.countDocuments({course, isActive: true})
      let lessonCount := (db.activeLessonsOf courseId).length
      if lessonCount == 0 then
        (db, .error ⟨400, "Course must have at least one lesson before submission"⟩)
      else if !(match course.thumbnail with
                | none => false
                | some t => !t.url.isEmpty) then
        (db, .error ⟨400, "Course must have a thumbnail before submission"⟩)
      else if !(course.status == .draft || course.status == .rejected) then
        (db, .error ⟨400, "Cannot submit course with status: " ++ course.status.str⟩)
      else
        let c2 := { course with status := .submitted, rejectionReason := none }
        (db.saveCourse c2, .ok c2)

/-- `approveCourse` (adminController): PUT /api/admin/courses/:id/approve. -/
def approveCourse (db : DB) (adminId courseId : Nat) : DB × Api Course :=
  match db.findCourse courseId with
  | none => (db, .error ⟨404, "Course not found"⟩)
  | some course =>
    if course.status != .submitted && course.status != .pendingReview then
      (db, .error ⟨400, "Course is not pending approval"⟩)
    else
      let c2 := { course with
        status := .published
        reviewedBy := some adminId
        requiresReapproval := false
        modificationReason := none }
      (db.saveCourse c2, .ok c2)

/-- `rejectCourse` (adminController): PUT /api/admin/courses/:id/reject. -/
def rejectCourse (db : DB) (adminId courseId : Nat)
    (reason : Option String) : DB × Api Course :=
  if !jsTruthy reason then
    (db, .error ⟨400, "Rejection reason is required"⟩)
  else
    match db.findCourse courseId with
    | none => (db, .error ⟨404, "Course not found"⟩)
    | some course =>
      if course.status != .submitted && course.status != .pendingReview then
        (db, .error ⟨400, "Course is not pending approval"⟩)
      else
        let c2 := { course with
          status := .rejected
          reviewedBy := some adminId
          rejectionReason := reason
          requiresReapproval := false
          modificationReason := none }
        (db.saveCourse c2, .ok c2)

/-- `reviewCourse` (adminController): PUT /api/admin/courses/:id/review,
the older combined approve/reject endpoint. -/
def reviewCourse (db : DB) (adminId courseId : Nat) (action : String)
    (rejectionReason : Option String) : DB × Api Course :=
  if action != "approve" && action != "reject" then
    (db, .error ⟨400, "Invalid action. Must be approve or reject"⟩)
  else
    match db.findCourse courseId with
    | none => (db, .error ⟨404, "Course not found"⟩)
    | some course =>
      if course.status != .submitted then
        (db, .error ⟨400, "Course is not in submitted status"⟩)
      else
        let c2 :=
          if action == "approve" then
            { course with
                status := .published
                rejectionReason := none
                reviewedBy := some adminId }
          else
            { course with
                status := .rejected
                rejectionReason := some (if jsTruthy rejectionReason then
                  rejectionReason.getD "" else
                  "Course did not meet quality standards")
                reviewedBy := some adminId }
        (db.saveCourse c2, .ok c2)

/-- `getCourses` (courseController): GET /api/courses (the matching
filter is `{status:'published', isActive:true}`; the optional search,
category, level and price filters are absent here, and sorting permutes
the matches before pagination). -/
def getCoursesMatches (db : DB) : List Course :=
  db.courses.filter (fun c => c.status == .published && c.isActive)

/-- `getCourse` (courseController): GET /api/courses/:id, a
`Course.findOne({_id, status:'published', isActive:true})`. -/
def getCourse (db : DB) (courseId : Nat) : Api Course :=
  match db.courses.find? (fun c =>
      c.id == courseId && c.status == .published && c.isActive) with
  | none => .error ⟨404, "Course not found"⟩
  | some c => .ok c

/-- The `lessonSchema.pre('save')` order-uniqueness guard: another
lesson of the same course with the same order and a different id. -/
def lessonOrderConflict (db : DB) (l : Lesson) : Bool :=
  db.lessons.any (fun x =>
    x.course == l.course && x.order == l.order && x.id != l.id)

/-- Saving a brand-new lesson document: the pre-save hook rejects a
duplicate order within the course with a ValidationError, otherwise the
document is inserted. -/
def saveNewLesson (db : DB) (l : Lesson) : DB × Api Lesson :=
  if lessonOrderConflict db l then
    (db, .error ⟨400, "Lesson with order " ++ toString l.order ++
      " already exists in this course"⟩)
  else
    ({ db with lessons := db.lessons ++ [l] }, .ok l)

/-- `Lesson.reorderLessons(courseId, deletedOrder)`: the
`updateMany({course, order: {$gt: deletedOrder}}, {$inc: {order: -1}})`
compaction. -/
def reorderLessonsAfterDelete (lessons : List Lesson)
    (courseId deletedOrder : Nat) : List Lesson :=
  lessons.map (fun l =>
    if l.course == courseId && deletedOrder < l.order then
      { l with order := l.order - 1 }
    else l)

/-- `lesson.deleteOne()` on a lesson document: the pre-deleteOne hook
runs the order compaction for the lesson's course, and the document
itself is removed. -/
def deleteLessonDoc (db : DB) (l : Lesson) : DB :=
  let remaining := db.lessons.filter (fun x => x.id != l.id)
  { db with lessons := reorderLessonsAfterDelete remaining l.course l.order }

/-- The identifiers bound at module scope of the lesson controller file:
its `require` lines bind exactly these (there is no `User` import). -/
def lessonControllerScope : List String :=
  ["asyncHandler", "Lesson", "Course", "deleteFromS3"]

/-- Resolution of a free identifier against a module scope; an unbound
identifier evaluates to a ReferenceError at the point of use. -/
def resolveIdent (scope : List String) (name : String) : Option String :=
  scope.find? (fun s => s == name)

/-- The remainder of `markLessonComplete` after the `User.findById`
expression, as written in the source; it is unreachable because the
identifier `User` does not resolve (see `markLessonComplete`). -/
def markLessonCompleteBody (db : DB) (userId : Nat) (lesson : Lesson)
    (freshHash : String) : DB × Api CompleteLessonData :=
  match db.findUser userId with
  | none => (db, .error nullDerefError)
  | some user =>
    match user.enrolledCourses.find? (fun e => e.course == lesson.course) with
    | none =>
      (db, .error ⟨400, "You must be enrolled in this course to mark lessons complete"⟩)
    | some enrollment =>
      if enrollment.completedLessons.contains lesson.id then
        (db, .error ⟨400, "Lesson already marked as complete"⟩)
      else
        let completed := enrollment.completedLessons ++ [lesson.id]
        let totalLessons := (db.activeLessonsOf lesson.course).length
        if totalLessons == 0 then
          -- completedCount / 0 is Infinity; user.save() then rejects on
          -- the progress validator
          (db, .error userValidationError)
        else
          let progress := jsRoundPct completed.length totalLessons
          if progress == 100 && !enrollment.certificateIssued then
            -- Certificate.create({user, course, completedAt,
            -- certificateHash}) violates the Certificate schema (learner,
            -- learnerName, courseTitle, totalLessons, courseDuration are
            -- required): the create rejects and nothing is saved
            (db, .error ⟨500, "Certificate validation failed: required fields missing" ++ freshHash⟩)
          else if progress > 100 then
            (db, .error userValidationError)
          else
            let user2 := { user with
              enrolledCourses :=
                updateEnrollment user.enrolledCourses lesson.course
                  (fun _ => { enrollment with
                    completedLessons := completed
                    progress := progress }) }
            (db.saveUser user2,
             .ok { lessonId := lesson.id
                   progress := progress
                   courseCompleted := progress == 100
                   certificateIssued := enrollment.certificateIssued })

/-- `markLessonComplete` (lessonController): POST
/api/lessons/:id/complete.  After the lesson lookup succeeds, the code
evaluates `User.findById(userId)`, but the lesson controller module
never requires the User model, so the identifier throws a
ReferenceError that `asyncHandler` forwards; nothing is written. -/
def markLessonComplete (db : DB) (userId lessonId : Nat)
    (freshHash : String) : DB × Api CompleteLessonData :=
  match db.lessons.find? (fun l => l.id == lessonId) with
  | none => (db, .error ⟨404, "Lesson not found"⟩)
  | some lesson =>
    match resolveIdent lessonControllerScope "User" with
    | none => (db, .error ⟨500, "ReferenceError: User is not defined"⟩)
    | some _ => markLessonCompleteBody db userId lesson freshHash

/-! ### Concrete fixtures used by witnesses and counterexamples -/

/-- An active lesson of course 1 with order 1. -/
def lessonA : Lesson := ⟨11, 1, 1, 10, true⟩

/-- A soft-deleted (inactive) lesson of course 1 with order 2. -/
def lessonInactive : Lesson := ⟨12, 1, 2, 10, false⟩

/-- A second active lesson of course 1 with order 2. -/
def lessonB : Lesson := ⟨13, 1, 2, 10, true⟩

/-- A thumbnail with a non-empty url. -/
def thumbMain : Thumbnail := ⟨"http://cdn/t.png", "k1"⟩

/-- A published course with a thumbnail, id 1, creator 10. -/
def courseMain : Course :=
  { id := 1, title := "T", description := "D", shortDescription := "S",
    category := "Programming", level := "Beginner", price := 0, duration := 10,
    creator := 10, status := .published, isActive := true, enrollmentCount := 1,
    rejectionReason := none, requiresReapproval := false,
    modificationReason := none, thumbnail := some thumbMain, reviewedBy := none,
    tags := [], requirements := [], outcomes := [] }

/-- A learner enrolled in course 1 with nothing completed yet. -/
def userLea : User :=
  { id := 5, name := "Lea", role := "learner", isBlocked := false,
    accountStatus := "active", restrictedCourses := [],
    enrolledCourses := [⟨1, 0, 0, [], false, none⟩] }

/-- A learner not enrolled anywhere. -/
def userMax : User :=
  { id := 6, name := "Max", role := "learner", isBlocked := false,
    accountStatus := "active", restrictedCourses := [], enrolledCourses := [] }

/-- A learner enrolled in course 1 who has completed lesson 11. -/
def userNia : User :=
  { id := 7, name := "Nia", role := "learner", isBlocked := false,
    accountStatus := "active", restrictedCourses := [],
    enrolledCourses := [⟨1, 0, 50, [11], false, none⟩] }

/-- The store holding Nia (lesson 11 already completed), the published
course 1, and its two active lessons. -/
def dbNia : DB := ⟨[userNia], [courseMain], [lessonA, lessonB], []⟩

/-- The store holding Lea (nothing completed), the published course 1,
its active lesson 11 and its soft-deleted lesson 12. -/
def dbLea : DB := ⟨[userLea], [courseMain], [lessonA, lessonInactive], []⟩

/-- Course 1 in draft. -/
def courseDraft : Course := { courseMain with status := .draft }

/-- Course 1 in pending_review after an edit of the published course. -/
def coursePending : Course :=
  { courseMain with status := .pendingReview, requiresReapproval := true }

/-- Course 1 in submitted. -/
def courseSubmitted : Course := { courseMain with status := .submitted }

/-- A request body editing only the description. -/
def bodyDesc : UpdateCourseBody :=
  ⟨none, some "new description", none, none, none, none, none, none, none⟩

/-- Store with the published course 1, one active lesson, and Max. -/
def dbPub : DB := ⟨[userMax], [courseMain], [lessonA], []⟩

/-- Store with course 1 in pending_review. -/
def dbPR : DB := ⟨[], [coursePending], [], []⟩

/-- Store with course 1 in draft whose only lesson is inactive. -/
def dbDraftNoLessons : DB := ⟨[], [courseDraft], [lessonInactive], []⟩

/-- Store with course 1 in draft and one active lesson. -/
def dbDraftOk : DB := ⟨[], [courseDraft], [lessonA], []⟩

/-- Two more active lessons of course 1, orders 2 and 3. -/
def lessonOrd2 : Lesson := ⟨21, 1, 2, 10, true⟩

/-- See `lessonOrd2`. -/
def lessonOrd3 : Lesson := ⟨22, 1, 3, 10, true⟩

/-- Store whose course 1 carries lessons with the dense orders 1, 2, 3. -/
def dbOrders : DB := ⟨[], [courseDraft], [lessonA, lessonOrd2, lessonOrd3], []⟩

/-- Store with Max and no courses at all. -/
def dbNoCourse : DB := ⟨[userMax], [], [], []⟩

/-- Course 1 rejected with a stored rejection reason. -/
def courseRejected : Course :=
  { courseMain with
    status := .rejected
    rejectionReason := some "low audio quality" }

/-- Store with the rejected course 1. -/
def dbRejected : DB := ⟨[], [courseRejected], [lessonA], []⟩

/-- The course document produced when a creator edits a core content
field of a published course: fields applied, status pending_review,
re-approval flag set, modification reason recorded. -/
def pendingAfterEdit (course : Course) (body : UpdateCourseBody) : Course :=
  { applyCourseBody course body with
    status := .pendingReview
    requiresReapproval := true
    modificationReason := some "Course content modified - requires re-approval" }

/-- The store after the creator edits the description of the published
course 1 in `dbPub`. -/
def dbEdited : DB := (updateCourse dbPub 10 1 bodyDesc none true).1

/-- Course 1 submitted while still carrying a rejection reason. -/
def courseSubmittedReason : Course :=
  { courseMain with
    status := .submitted
    rejectionReason := some "old reason" }

/-- Store with `courseSubmittedReason`. -/
def dbSubmittedReason : DB := ⟨[], [courseSubmittedReason], [lessonA], []⟩

/-- The order values of the lessons of a course, in store order. -/
def courseOrders (db : DB) (cid : Nat) : List Nat :=
  (db.lessonsOf cid).map (fun l => l.order)

/-- The order list is exactly 1..n with no duplicates and no gaps. -/
def denseOrders (os : List Nat) (n : Nat) : Prop :=
  os.Nodup ∧ ∀ k, k ∈ os ↔ (1 ≤ k ∧ k ≤ n)

/-! ### Helper lemmas about the store -/

/-- Mapping a replacement function over a list keeps `find?` pointed at
the (replaced) first match, provided the function fixes non-matching
elements and the replacement still matches. -/
theorem find?_map_replace {α : Type} (p : α → Bool) (g : α → α) :
    ∀ (us : List α) (u : α), us.find? p = some u →
    (∀ x, p x = false → g x = x) → p (g u) = true →
    (us.map g).find? p = some (g u) := by
  intro us
  induction us with
  | nil => intro u h _ _; simp at h
  | cons a rest ih =>
    intro u h hfix hrep
    cases hpa : p a with
    | true =>
      simp only [List.find?_cons, hpa] at h
      obtain rfl : a = u := by injection h
      simp only [List.map_cons, List.find?_cons, hrep]
    | false =>
      simp only [List.find?_cons, hpa] at h
      simp only [List.map_cons, List.find?_cons, hfix a hpa, hpa]
      exact ih u h hfix hrep

/-- After `db.saveUser u2`, looking the user up by the old id finds the
saved document. -/
theorem findUser_saveUser (db : DB) (uid : Nat) (u u2 : User)
    (hu : db.findUser uid = some u) (hid : u2.id = u.id) :
    (db.saveUser u2).findUser uid = some u2 := by
  have hu' : db.users.find? (fun x => x.id == uid) = some u := hu
  have huid : u.id = uid := by simpa using List.find?_some hu'
  have main := find?_map_replace (fun x => x.id == uid)
    (fun x => if x.id == u2.id then u2 else x) db.users u hu'
    (fun x hx => by
      dsimp only at hx ⊢
      simp only [beq_eq_false_iff_ne, ne_eq] at hx
      rw [if_neg (by simp [hid, huid, hx])])
    (by
      dsimp only
      rw [if_pos (by simp [hid])]
      simp [hid, huid])
  show (db.users.map (fun x => if x.id == u2.id then u2 else x)).find?
    (fun x => x.id == uid) = some u2
  rw [main]
  dsimp only
  rw [if_pos (by simp [hid])]

/-- After `db.saveCourse c2`, looking the course up by the old id finds
the saved document. -/
theorem findCourse_saveCourse (db : DB) (cid : Nat) (c c2 : Course)
    (hc : db.findCourse cid = some c) (hid : c2.id = c.id) :
    (db.saveCourse c2).findCourse cid = some c2 := by
  have hc' : db.courses.find? (fun x => x.id == cid) = some c := hc
  have hcid : c.id = cid := by simpa using List.find?_some hc'
  have main := find?_map_replace (fun x => x.id == cid)
    (fun x => if x.id == c2.id then c2 else x) db.courses c hc'
    (fun x hx => by
      dsimp only at hx ⊢
      simp only [beq_eq_false_iff_ne, ne_eq] at hx
      rw [if_neg (by simp [hid, hcid, hx])])
    (by
      dsimp only
      rw [if_pos (by simp [hid])]
      simp [hid, hcid])
  show (db.courses.map (fun x => if x.id == c2.id then c2 else x)).find?
    (fun x => x.id == cid) = some c2
  rw [main]
  dsimp only
  rw [if_pos (by simp [hid])]

/-- `updateEnrollment` rewrites exactly the enrollment the controller
found, and the lookup afterwards returns the rewritten record, provided
the rewrite keeps the course id. -/
theorem find?_updateEnrollment (es : List Enrollment) (cid : Nat)
    (e : Enrollment) (f : Enrollment → Enrollment)
    (hf : (f e).course = e.course) :
    es.find? (fun x => x.course == cid) = some e →
    (updateEnrollment es cid f).find? (fun x => x.course == cid)
      = some (f e) := by
  induction es with
  | nil => intro he; simp at he
  | cons a rest ih =>
    intro he
    cases hpa : (a.course == cid) with
    | true =>
      simp only [List.find?_cons, hpa] at he
      obtain rfl : a = e := by injection he
      have h2 : ((f a).course == cid) = true := by rw [hf]; exact hpa
      simp only [updateEnrollment, hpa, if_true, List.find?_cons, h2]
    | false =>
      simp only [List.find?_cons, hpa] at he
      simp only [updateEnrollment, hpa]
      rw [if_neg (by simp [hpa])]
      simp only [List.find?_cons, hpa]
      exact ih he

/-- C4: a second `completeLesson` call for a lesson already in the
enrollment's `completedLessons` is rejected with the
duplicate-completion (Conflict) error — status 400, message "Lesson
already completed" — and the store is returned unchanged: no
`completedLessons`, `progress` or `certificateIssued` mutation. -/
theorem c4_duplicate_complete_conflict (db : DB) (uid cid lid : Nat)
    (certSaveOk : Bool) (serialHash : String) (u : User) (e : Enrollment)
    (hu : db.findUser uid = some u)
    (he : u.enrolledCourses.find? (fun x => x.course == cid) = some e)
    (hl : (db.lessons.find? (fun l =>
      l.id == lid && l.course == cid && l.isActive)).isSome = true)
    (hmem : e.completedLessons.contains lid = true) :
    completeLesson db uid cid lid certSaveOk serialHash
      = (db, .error ⟨400, "Lesson already completed"⟩) := by
  obtain ⟨l, hl2⟩ := Option.isSome_iff_exists.mp hl
  simp only [completeLesson, hu, he, hl2, hmem, if_true]

/-- Witness for C4: Nia completed lesson 11 already; a repeat call is
rejected and the store is unchanged. -/
theorem c4_witness :
    completeLesson dbNia 7 1 11 false "H"
      = (dbNia, .error ⟨400, "Lesson already completed"⟩) :=
  c4_duplicate_complete_conflict dbNia 7 1 11 false "H" userNia
    ⟨1, 0, 50, [11], false, none⟩ (by decide) (by decide) (by decide) (by decide)

/-- C10: whenever the lesson lookup of `markLessonComplete` succeeds
(the request reaches the enrollment lookup), the handler throws a
ReferenceError — the lesson controller module never binds `User` — so
the endpoint persists nothing: the store comes back unchanged, no
completion, no progress update, no certificate. -/
theorem c10_markLessonComplete_unbound_user (db : DB) (uid lid : Nat)
    (freshHash : String) (l : Lesson)
    (hl : db.lessons.find? (fun x => x.id == lid) = some l) :
    markLessonComplete db uid lid freshHash
      = (db, .error ⟨500, "ReferenceError: User is not defined"⟩) := by
  simp only [markLessonComplete, hl]
  rfl

/-- Witness for C10: lesson 11 exists, so the call reaches the unbound
identifier and errors with the store unchanged. -/
theorem c10_witness :
    markLessonComplete dbNia 7 11 "F"
      = (dbNia, .error ⟨500, "ReferenceError: User is not defined"⟩) :=
  c10_markLessonComplete_unbound_user dbNia 7 11 "F" lessonA (by decide)

/-- Reading the enrollment back after `user.save()` persisted a
rewritten enrollment list: the lookup returns the rewritten record. -/
theorem enrollmentOf_saveUser_update (db : DB) (uid cid : Nat)
    (u : User) (e : Enrollment) (cl : List Nat) (p : Nat) (ci : Bool)
    (ch : Option String)
    (hu : db.findUser uid = some u)
    (he : u.enrolledCourses.find? (fun x => x.course == cid) = some e) :
    DB.enrollmentOf
      (db.saveUser
        { u with
          enrolledCourses :=
            updateEnrollment u.enrolledCourses cid (fun _ =>
              { e with
                completedLessons := cl, progress := p,
                certificateIssued := ci, certificateHash := ch }) })
      uid cid
      = some { e with
               completedLessons := cl, progress := p,
               certificateIssued := ci, certificateHash := ch } := by
  have main := findUser_saveUser db uid u
    { u with
      enrolledCourses :=
        updateEnrollment u.enrolledCourses cid (fun _ =>
          { e with
            completedLessons := cl, progress := p,
            certificateIssued := ci, certificateHash := ch }) } hu rfl
  have henr := find?_updateEnrollment u.enrolledCourses cid e (fun _ =>
    { e with
      completedLessons := cl, progress := p,
      certificateIssued := ci, certificateHash := ch }) rfl he
  simp only [DB.enrollmentOf, main, henr]

/-- As `enrollmentOf_saveUser_update`, for a store whose certificates
collection was replaced first (certificate writes do not touch the
users collection). -/
theorem enrollmentOf_certs_saveUser_update (db : DB)
    (certs : List Certificate) (uid cid : Nat) (u : User) (e : Enrollment)
    (cl : List Nat) (p : Nat) (ci : Bool) (ch : Option String)
    (hu : db.findUser uid = some u)
    (he : u.enrolledCourses.find? (fun x => x.course == cid) = some e) :
    DB.enrollmentOf
      (DB.saveUser
        { db with certificates := certs }
        { u with
          enrolledCourses :=
            updateEnrollment u.enrolledCourses cid (fun _ =>
              { e with
                completedLessons := cl, progress := p,
                certificateIssued := ci, certificateHash := ch }) })
      uid cid
      = some { e with
               completedLessons := cl, progress := p,
               certificateIssued := ci, certificateHash := ch } := by
  have main := findUser_saveUser db uid u
    { u with
      enrolledCourses :=
        updateEnrollment u.enrolledCourses cid (fun _ =>
          { e with
            completedLessons := cl, progress := p,
            certificateIssued := ci, certificateHash := ch }) } hu rfl
  have main2 : DB.findUser
      (DB.saveUser
        { db with certificates := certs }
        { u with
          enrolledCourses :=
            updateEnrollment u.enrolledCourses cid (fun _ =>
              { e with
                completedLessons := cl, progress := p,
                certificateIssued := ci, certificateHash := ch }) })
      uid
      = some { u with
               enrolledCourses :=
                 updateEnrollment u.enrolledCourses cid (fun _ =>
                   { e with
                     completedLessons := cl, progress := p,
                     certificateIssued := ci, certificateHash := ch }) } := main
  have henr := find?_updateEnrollment u.enrolledCourses cid e (fun _ =>
    { e with
      completedLessons := cl, progress := p,
      certificateIssued := ci, certificateHash := ch }) rfl he
  simp only [DB.enrollmentOf, main2, henr]

/-- C1 counterexample: course 1 has one active lesson (11) and one
inactive lesson (12).  Lea completes lesson 11; the stored progress is
50, because the `populate('lessons')` denominator counts the inactive
lesson too, while the claimed active-only formula
`round(100 * 1 / 1)` gives 100. -/
theorem c1_counterexample :
    ((completeLesson dbLea 5 1 11 false "H").1.enrollmentOf 5 1).map
      Enrollment.progress = some 50
    ∧ ((completeLesson dbLea 5 1 11 false "H").1.enrollmentOf 5 1).map
      (fun e => e.completedLessons.length) = some 1
    ∧ (dbLea.activeLessonsOf 1).length = 1
    ∧ jsRoundPct 1 1 = 100
    ∧ (50 : Nat) ≠ 100 :=
  ⟨by rfl, by rfl, by rfl, by rfl, by decide⟩

/-- C1 (amended): after any successful `completeLesson` call the stored
progress equals `round(100 * |completedLessons| / totalLessons)` where
the denominator counts **all** lessons of the course — active and
inactive alike, as populated by the unfiltered `lessons` virtual — with
progress 0 when the course has no lessons at all (no division by
zero), and the stored progress lies between 0 and 100 (a computation
above 100 fails schema validation and stores nothing). -/
theorem c1_progress_all_lessons_denominator (db db2 : DB)
    (uid cid lid : Nat) (certSaveOk : Bool) (serialHash : String)
    (u : User) (e : Enrollment) (d : CompleteLessonData)
    (hu : db.findUser uid = some u)
    (he : u.enrolledCourses.find? (fun x => x.course == cid) = some e)
    (hres : completeLesson db uid cid lid certSaveOk serialHash
      = (db2, .ok d)) :
    d.progress = (if (db.lessonsOf cid).length > 0
        then jsRoundPct (e.completedLessons.length + 1) (db.lessonsOf cid).length
        else 0)
    ∧ (db2.enrollmentOf uid cid).map Enrollment.progress = some d.progress
    ∧ d.progress ≤ 100 := by
  simp only [completeLesson, hu, he] at hres
  cases hl : db.lessons.find? (fun l =>
      l.id == lid && l.course == cid && l.isActive) with
  | none => simp only [hl] at hres; simp at hres
  | some l =>
    simp only [hl] at hres
    cases hmem : e.completedLessons.contains lid with
    | true => simp only [hmem, if_true] at hres; simp at hres
    | false =>
      simp only [hmem, Bool.false_eq_true, if_false] at hres
      cases hc : db.findCourse cid with
      | none => simp only [hc] at hres; simp at hres
      | some c =>
        simp only [hc] at hres
        split at hres
        case isTrue htot =>
          split at hres
          case isTrue hover => simp at hres
          case isFalse hnotover =>
            rw [Prod.mk.injEq] at hres
            obtain ⟨hdb2, hd⟩ := hres
            rw [Except.ok.injEq] at hd
            subst hdb2
            subst hd
            refine ⟨by simp [htot], ?_, by dsimp only; omega⟩
            by_cases hcond : (jsRoundPct (e.completedLessons ++ [lid]).length
                (db.lessonsOf cid).length == 100 && !e.certificateIssued
                && certSaveOk) = true
            · rw [if_pos hcond, if_pos hcond,
                enrollmentOf_certs_saveUser_update db _ uid cid u e _ _ _ _ hu he]
              simp
            · rw [if_neg hcond, if_neg hcond,
                enrollmentOf_saveUser_update db uid cid u e _ _ _ _ hu he]
              simp
        case isFalse htot =>
          rw [if_neg (by omega : ¬ (0:Nat) > 100)] at hres
          rw [Prod.mk.injEq] at hres
          obtain ⟨hdb2, hd⟩ := hres
          rw [Except.ok.injEq] at hd
          subst hdb2
          subst hd
          refine ⟨by simp [htot], ?_, by dsimp only; omega⟩
          rw [if_neg (by simp : ¬ (((0:Nat) == 100 && !e.certificateIssued
              && certSaveOk) = true)),
            if_neg (by simp : ¬ (((0:Nat) == 100 && !e.certificateIssued
              && certSaveOk) = true)),
            enrollmentOf_saveUser_update db uid cid u e _ _ _ _ hu he]
          simp

/-- Witness for C1 (amended): Lea completes lesson 11 of course 1,
which has two lessons in store (one inactive); the stored and returned
progress is `round(100 * 1/2) = 50`. -/
theorem c1_witness :
    ((50 : Nat) = (if (dbLea.lessonsOf 1).length > 0
        then jsRoundPct (0 + 1) (dbLea.lessonsOf 1).length
        else 0))
    ∧ (((completeLesson dbLea 5 1 11 false "H").1).enrollmentOf 5 1).map
        Enrollment.progress = some 50
    ∧ (50 : Nat) ≤ 100 :=
  c1_progress_all_lessons_denominator dbLea
    (completeLesson dbLea 5 1 11 false "H").1 5 1 11 false "H"
    userLea ⟨1, 0, 0, [], false, none⟩ ⟨11, 50, false, false⟩
    (by rfl) (by rfl) (by rfl)

/-- C3: when the recomputed progress reaches 100 and the certificate
write fails (`certSaveOk = false`, the issuance promise rejects inside
the try/catch), the completion call still succeeds: the lesson is
recorded, progress 100 is stored and returned, `certificateIssued`
stays false, and no certificate document is created; the issuance error
never reaches the caller. -/
theorem c3_issuance_failure_swallowed (db : DB) (uid cid lid : Nat)
    (serialHash : String) (u : User) (e : Enrollment) (l : Lesson)
    (c : Course)
    (hu : db.findUser uid = some u)
    (he : u.enrolledCourses.find? (fun x => x.course == cid) = some e)
    (hl : db.lessons.find? (fun x =>
      x.id == lid && x.course == cid && x.isActive) = some l)
    (hmem : e.completedLessons.contains lid = false)
    (hc : db.findCourse cid = some c)
    (hcert : e.certificateIssued = false)
    (htot : (db.lessonsOf cid).length > 0)
    (hprog : jsRoundPct (e.completedLessons.length + 1)
      (db.lessonsOf cid).length = 100) :
    completeLesson db uid cid lid false serialHash
      = (db.saveUser
          { u with
            enrolledCourses :=
              updateEnrollment u.enrolledCourses cid (fun _ =>
                { e with
                  completedLessons := e.completedLessons ++ [lid],
                  progress := 100, certificateIssued := false }) },
         .ok ⟨lid, 100, true, false⟩)
    ∧ (completeLesson db uid cid lid false serialHash).1.certificates
        = db.certificates
    ∧ DB.enrollmentOf (completeLesson db uid cid lid false serialHash).1
        uid cid
        = some { e with
                 completedLessons := e.completedLessons ++ [lid],
                 progress := 100, certificateIssued := false } := by
  have hcall : completeLesson db uid cid lid false serialHash
      = (db.saveUser
          { u with
            enrolledCourses :=
              updateEnrollment u.enrolledCourses cid (fun _ =>
                { e with
                  completedLessons := e.completedLessons ++ [lid],
                  progress := 100, certificateIssued := false }) },
         .ok ⟨lid, 100, true, false⟩) := by
    simp only [completeLesson, hu, he, hl, hmem, Bool.false_eq_true, if_false,
      hc, if_pos htot, List.length_append, List.length_singleton, hprog, hcert]
    simp
  refine ⟨hcall, ?_, ?_⟩
  · rw [hcall]
    rfl
  · rw [hcall]
    exact enrollmentOf_saveUser_update db uid cid u e _ _ _ _ hu he

/-- Witness for C3: Nia (lesson 11 done, one of two active lessons)
completes lesson 13 while the certificate write fails; the call
succeeds with progress 100, no certificate stored, flag still false. -/
theorem c3_witness :
    completeLesson dbNia 7 1 13 false "H"
      = (dbNia.saveUser
          { userNia with
            enrolledCourses :=
              updateEnrollment userNia.enrolledCourses 1 (fun _ =>
                ⟨1, 0, 100, [11, 13], false, none⟩) },
         .ok ⟨13, 100, true, false⟩)
    ∧ (completeLesson dbNia 7 1 13 false "H").1.certificates = []
    ∧ DB.enrollmentOf (completeLesson dbNia 7 1 13 false "H").1 7 1
        = some ⟨1, 0, 100, [11, 13], false, none⟩ :=
  c3_issuance_failure_swallowed dbNia 7 1 13 "H" userNia
    ⟨1, 0, 50, [11], false, none⟩ lessonB courseMain
    (by rfl) (by rfl) (by rfl) (by rfl) (by rfl) (by rfl)
    (by decide) (by rfl)

/-- C6: `submitCourse` succeeds — status becomes submitted and the
rejection reason is cleared — only from draft or rejected, with at
least one active lesson and a truthy thumbnail; with zero active
lessons it fails with the InvalidState error "Course must have at
least one lesson before submission" (store unchanged), and from any
other status it fails. -/
theorem c6_submit_preconditions (db : DB) (uid cid : Nat) (course : Course)
    (hc : db.findCourse cid = some course)
    (howner : course.creator = uid) :
    ((db.activeLessonsOf cid).length = 0 →
      submitCourse db uid cid
        = (db, .error ⟨400, "Course must have at least one lesson before submission"⟩))
    ∧ (∀ db2 c2, submitCourse db uid cid = (db2, .ok c2) →
        (course.status = .draft ∨ course.status = .rejected)
        ∧ 0 < (db.activeLessonsOf cid).length
        ∧ (∃ t, course.thumbnail = some t ∧ t.url.isEmpty = false)
        ∧ c2 = { course with status := .submitted, rejectionReason := none }
        ∧ db2 = db.saveCourse { course with status := .submitted, rejectionReason := none })
    ∧ (course.status ≠ .draft → course.status ≠ .rejected →
        ∀ db2 c2, submitCourse db uid cid ≠ (db2, .ok c2))
    ∧ (0 < (db.activeLessonsOf cid).length →
        (∃ t, course.thumbnail = some t ∧ t.url.isEmpty = false) →
        (course.status = .draft ∨ course.status = .rejected) →
        submitCourse db uid cid
          = (db.saveCourse { course with status := .submitted, rejectionReason := none },
             .ok { course with status := .submitted, rejectionReason := none })) := by
  subst howner
  have success : ∀ db2 c2, submitCourse db course.creator cid = (db2, .ok c2) →
      (course.status = .draft ∨ course.status = .rejected)
      ∧ 0 < (db.activeLessonsOf cid).length
      ∧ (∃ t, course.thumbnail = some t ∧ t.url.isEmpty = false)
      ∧ c2 = { course with status := .submitted, rejectionReason := none }
      ∧ db2 = db.saveCourse { course with status := .submitted, rejectionReason := none } := by
    intro db2 c2 hres
    simp only [submitCourse, hc] at hres
    rw [if_neg (by simp)] at hres
    by_cases h0 : ((db.activeLessonsOf cid).length == 0) = true
    · rw [if_pos h0] at hres
      exact absurd hres (by simp)
    · rw [if_neg h0] at hres
      cases hth : course.thumbnail with
      | none =>
        rw [hth] at hres
        rw [if_pos (by simp)] at hres
        exact absurd hres (by simp)
      | some t =>
        rw [hth] at hres
        cases hurl : t.url.isEmpty with
        | true =>
          rw [if_pos (by simp [hurl])] at hres
          exact absurd hres (by simp)
        | false =>
          rw [if_neg (by simp [hurl])] at hres
          by_cases hst : (course.status == CourseStatus.draft
              || course.status == CourseStatus.rejected) = true
          · rw [if_neg (by simp [hst])] at hres
            rw [Prod.mk.injEq] at hres
            obtain ⟨hdb2, hc2⟩ := hres
            rw [Except.ok.injEq] at hc2
            refine ⟨?_, ?_, ⟨t, rfl, hurl⟩, hc2.symm, hdb2.symm⟩
            · rcases Bool.or_eq_true_iff.mp hst with h | h
              · exact Or.inl (by simpa using h)
              · exact Or.inr (by simpa using h)
            · have h0a : (db.activeLessonsOf cid).length ≠ 0 := by simpa using h0
              omega
          · rw [if_pos (by simp [hst])] at hres
            exact absurd hres (by simp)
  refine ⟨?_, success, ?_, ?_⟩
  · intro h0
    simp only [submitCourse, hc]
    rw [if_neg (by simp)]
    rw [if_pos (by simp [h0])]
  · intro hnd hnr db2 c2 hres
    rcases (success db2 c2 hres).1 with h | h
    · exact hnd h
    · exact hnr h
  · intro hlen hth hst
    obtain ⟨t, ht, hu⟩ := hth
    simp only [submitCourse, hc, ht]
    rw [if_neg (by simp)]
    rw [if_neg (by rw [beq_iff_eq]; omega)]
    rw [if_neg (by simp [hu])]
    rw [if_neg (by
      rcases hst with h | h <;> simp [h])]

/-- Witness for C6: submitting the draft course with only an inactive
lesson fails with InvalidState; submitting the draft course with an
active lesson and a thumbnail succeeds and clears the rejection
reason. -/
theorem c6_witness :
    submitCourse dbDraftNoLessons 10 1
      = (dbDraftNoLessons,
         .error ⟨400, "Course must have at least one lesson before submission"⟩)
    ∧ submitCourse dbDraftOk 10 1
      = (dbDraftOk.saveCourse
          { courseDraft with status := .submitted, rejectionReason := none },
         .ok { courseDraft with status := .submitted, rejectionReason := none }) :=
  ⟨(c6_submit_preconditions dbDraftNoLessons 10 1 courseDraft (by rfl) (by rfl)).1
      (by rfl),
   (c6_submit_preconditions dbDraftOk 10 1 courseDraft (by rfl) (by rfl)).2.2.2
      (by decide) ⟨thumbMain, by rfl, by rfl⟩ (Or.inl (by rfl))⟩

/-- Appending an element to a list in which nothing satisfied the
predicate makes `find?` return that element, when it satisfies it. -/
theorem find?_append_singleton (es : List Enrollment) (p : Enrollment → Bool)
    (x : Enrollment) (hx : p x = true) :
    es.any p = false → (es ++ [x]).find? p = some x := by
  induction es with
  | nil =>
    intro _
    simp only [List.nil_append, List.find?_cons, hx]
  | cons a rest ih =>
    intro h
    rw [List.any_cons] at h
    have hpa : p a = false := by
      cases hpa2 : p a
      · rfl
      · rw [hpa2] at h; simp at h
    have hrest : rest.any p = false := by
      rw [hpa] at h; simpa using h
    rw [List.cons_append]
    simp only [List.find?_cons, hpa]
    exact ih hrest

/-- C7: `enrollInCourse` rejects a blocked learner with Forbidden, a
restricted learner with Forbidden, a missing course with NotFound, a
non-published course with InvalidState and a duplicate enrollment with
the Conflict error, each leaving the store unchanged; on success it
appends exactly one enrollment with progress 0, empty completedLessons
and certificateIssued false, and sets the course's enrollmentCount to a
full recount of the users holding an enrollment for the course. -/
theorem c7_enroll_spec (db : DB) (uid cid now : Nat) (u : User)
    (hu : db.findUser uid = some u) :
    ((u.isBlocked || u.accountStatus == "blocked") = true →
      enrollInCourse db uid cid now
        = (db, .error ⟨403, "Your account is blocked. Please contact support."⟩))
    ∧ ((u.isBlocked || u.accountStatus == "blocked") = false →
       u.restrictedCourses.contains cid = true →
      enrollInCourse db uid cid now
        = (db, .error ⟨403, "You are restricted from enrolling in this course"⟩))
    ∧ ((u.isBlocked || u.accountStatus == "blocked") = false →
       u.restrictedCourses.contains cid = false →
       db.findCourse cid = none →
      enrollInCourse db uid cid now = (db, .error ⟨404, "Course not found"⟩))
    ∧ (∀ c, (u.isBlocked || u.accountStatus == "blocked") = false →
       u.restrictedCourses.contains cid = false →
       db.findCourse cid = some c →
       c.status ≠ .published →
      enrollInCourse db uid cid now
        = (db, .error ⟨400, "Course is not available for enrollment"⟩))
    ∧ (∀ c, (u.isBlocked || u.accountStatus == "blocked") = false →
       u.restrictedCourses.contains cid = false →
       db.findCourse cid = some c →
       c.status = .published →
       u.enrolledCourses.any (fun e => e.course == cid) = true →
      enrollInCourse db uid cid now
        = (db, .error ⟨400, "You are already enrolled in this course"⟩))
    ∧ (∀ c, (u.isBlocked || u.accountStatus == "blocked") = false →
       u.restrictedCourses.contains cid = false →
       db.findCourse cid = some c →
       c.status = .published →
       u.enrolledCourses.any (fun e => e.course == cid) = false →
      enrollInCourse db uid cid now
        = ((db.saveUser
              { u with enrolledCourses :=
                  u.enrolledCourses ++ [⟨cid, now, 0, [], false, none⟩] }).saveCourse
            { c with enrollmentCount :=
                ((db.saveUser
                  { u with enrolledCourses :=
                      u.enrolledCourses ++ [⟨cid, now, 0, [], false, none⟩] }).users.filter
                  (fun v => v.enrolledCourses.any (fun e => e.course == cid))).length },
           .ok 201)
      ∧ DB.enrollmentOf (enrollInCourse db uid cid now).1 uid cid
          = some ⟨cid, now, 0, [], false, none⟩
      ∧ DB.findCourse (enrollInCourse db uid cid now).1 cid
          = some { c with enrollmentCount :=
              ((db.saveUser
                { u with enrolledCourses :=
                    u.enrolledCourses ++ [⟨cid, now, 0, [], false, none⟩] }).users.filter
                (fun v => v.enrolledCourses.any (fun e => e.course == cid))).length }) := by
  refine ⟨?_, ?_, ?_, ?_, ?_, ?_⟩
  · intro hb
    simp only [enrollInCourse, hu, hb, if_true]
  · intro hb hr
    simp only [enrollInCourse, hu, hb, Bool.false_eq_true, if_false, hr, if_true]
  · intro hb hr hc
    simp only [enrollInCourse, hu, hb, Bool.false_eq_true, if_false, hr, hc]
  · intro c hb hr hc hpub
    have hne : (c.status != CourseStatus.published) = true := by
      simpa using hpub
    simp only [enrollInCourse, hu, hb, Bool.false_eq_true, if_false, hr, hc,
      hne, if_true]
  · intro c hb hr hc hpub henr
    simp only [enrollInCourse, hu, hb, Bool.false_eq_true, if_false, hr, hc,
      hpub, bne_self_eq_false, henr, if_true]
  · intro c hb hr hc hpub henr
    have hevl : enrollInCourse db uid cid now
        = ((db.saveUser
              { u with enrolledCourses :=
                  u.enrolledCourses ++ [⟨cid, now, 0, [], false, none⟩] }).saveCourse
            { c with enrollmentCount :=
                ((db.saveUser
                  { u with enrolledCourses :=
                      u.enrolledCourses ++ [⟨cid, now, 0, [], false, none⟩] }).users.filter
                  (fun v => v.enrolledCourses.any (fun e => e.course == cid))).length },
           .ok 201) := by
      simp only [enrollInCourse, hu, hb, Bool.false_eq_true, if_false, hr, hc,
        hpub, bne_self_eq_false, henr]
    have hsave : (db.saveUser
        { u with enrolledCourses :=
            u.enrolledCourses ++ [⟨cid, now, 0, [], false, none⟩] }).findUser uid
        = some { u with enrolledCourses :=
            u.enrolledCourses ++ [⟨cid, now, 0, [], false, none⟩] } :=
      findUser_saveUser db uid u _ hu rfl
    refine ⟨hevl, ?_, ?_⟩
    · rw [hevl]
      have hsave2 : (DB.saveCourse
          (db.saveUser
            { u with enrolledCourses :=
                u.enrolledCourses ++ [⟨cid, now, 0, [], false, none⟩] })
          { c with enrollmentCount :=
              ((db.saveUser
                { u with enrolledCourses :=
                    u.enrolledCourses ++ [⟨cid, now, 0, [], false, none⟩] }).users.filter
                (fun v => v.enrolledCourses.any (fun e => e.course == cid))).length }).findUser
          uid
          = some { u with enrolledCourses :=
              u.enrolledCourses ++ [⟨cid, now, 0, [], false, none⟩] } := hsave
      simp only [DB.enrollmentOf, hsave2]
      exact find?_append_singleton u.enrolledCourses _ _ (by simp) henr
    · rw [hevl]
      have hc2 : (db.saveUser
          { u with enrolledCourses :=
              u.enrolledCourses ++ [⟨cid, now, 0, [], false, none⟩] }).findCourse cid
          = some c := hc
      exact findCourse_saveCourse _ cid c _ hc2 rfl

/-- Witness for C7: enrolling in a missing course is NotFound; Max
enrolling in the published course succeeds with a fresh zero-progress
enrollment and a recounted enrollmentCount of 1. -/
theorem c7_witness :
    enrollInCourse dbNoCourse 6 1 42
      = (dbNoCourse, .error ⟨404, "Course not found"⟩)
    ∧ (enrollInCourse dbPub 6 1 42).2 = .ok 201
    ∧ DB.enrollmentOf (enrollInCourse dbPub 6 1 42).1 6 1
        = some ⟨1, 42, 0, [], false, none⟩
    ∧ DB.findCourse (enrollInCourse dbPub 6 1 42).1 1
        = some { courseMain with enrollmentCount := 1 } := by
  have h3 := (c7_enroll_spec dbNoCourse 6 1 42 userMax (by rfl)).2.2.1
    (by rfl) (by rfl) (by rfl)
  have h6 := (c7_enroll_spec dbPub 6 1 42 userMax (by rfl)).2.2.2.2.2
    courseMain (by rfl) (by rfl) (by rfl) (by rfl) (by rfl)
  exact ⟨h3, by rw [h6.1], h6.2.1, h6.2.2⟩

/-- C9: editing a course whose status is not published leaves the
status unchanged, except that editing a rejected course resets it to
draft and clears the stored rejection reason; this holds on both the
creator-route and the course-route update controllers (the latter for
any caller role that passes its guards). -/
theorem c9_edit_nonpublished (db : DB) (uid cid : Nat)
    (body : UpdateCourseBody) (uploadOk : Bool) (role : String)
    (course : Course)
    (hc : db.findCourse cid = some course)
    (howner : course.creator = uid)
    (hnp : course.status ≠ .published) :
    (course.status = .rejected →
      updateCourse db uid cid body none uploadOk
        = (db.saveCourse { applyCourseBody course body with
             status := .draft, rejectionReason := none },
           .ok { applyCourseBody course body with
             status := .draft, rejectionReason := none })
      ∧ courseCtrlUpdateCourse db uid role cid body
        = (db.saveCourse { applyCourseBody course body with
             status := .draft, rejectionReason := none },
           .ok { applyCourseBody course body with
             status := .draft, rejectionReason := none }))
    ∧ (course.status ≠ .rejected →
      updateCourse db uid cid body none uploadOk
        = (db.saveCourse (applyCourseBody course body),
           .ok (applyCourseBody course body))
      ∧ courseCtrlUpdateCourse db uid role cid body
        = (db.saveCourse (applyCourseBody course body),
           .ok (applyCourseBody course body))
      ∧ (applyCourseBody course body).status = course.status
      ∧ (applyCourseBody course body).rejectionReason
          = course.rejectionReason) := by
  subst howner
  have happly : (applyCourseBody course body).status = course.status := rfl
  have hpubb : (course.status == CourseStatus.published) = false := by
    simpa using hnp
  constructor
  · intro hrej
    have hrejb : ((applyCourseBody course body).status
        == CourseStatus.rejected) = true := by
      rw [happly, hrej]; rfl
    constructor
    · simp only [updateCourse, hc]
      rw [if_neg (by simp)]
      simp only [hpubb, Bool.false_and, Bool.false_eq_true, if_false,
        hrejb, if_true]
    · simp only [courseCtrlUpdateCourse, hc]
      rw [if_neg (by simp)]
      simp only [hpubb, Bool.false_and, Bool.false_eq_true, if_false,
        hrejb, if_true]
  · intro hrej
    have hrejb : ((applyCourseBody course body).status
        == CourseStatus.rejected) = false := by
      rw [happly]; simpa using hrej
    refine ⟨?_, ?_, happly, rfl⟩
    · simp only [updateCourse, hc]
      rw [if_neg (by simp)]
      simp only [hpubb, Bool.false_and, Bool.false_eq_true, if_false, hrejb]
    · simp only [courseCtrlUpdateCourse, hc]
      rw [if_neg (by simp)]
      simp only [hpubb, Bool.false_and, Bool.false_eq_true, if_false, hrejb]

/-- Witness for C9: editing the rejected course resets it to draft and
clears the reason; editing the draft course leaves it in draft. -/
theorem c9_witness :
    updateCourse dbRejected 10 1 bodyDesc none true
      = (dbRejected.saveCourse { applyCourseBody courseRejected bodyDesc with
           status := .draft, rejectionReason := none },
         .ok { applyCourseBody courseRejected bodyDesc with
           status := .draft, rejectionReason := none })
    ∧ updateCourse dbDraftOk 10 1 bodyDesc none true
        = (dbDraftOk.saveCourse (applyCourseBody courseDraft bodyDesc),
           .ok (applyCourseBody courseDraft bodyDesc))
    ∧ (applyCourseBody courseDraft bodyDesc).status = CourseStatus.draft := by
  have h1 := (c9_edit_nonpublished dbRejected 10 1 bodyDesc true "creator"
    courseRejected (by rfl) (by rfl) (by decide)).1 (by rfl)
  have h2 := (c9_edit_nonpublished dbDraftOk 10 1 bodyDesc true "creator"
    courseDraft (by rfl) (by rfl) (by decide)).2 (by decide)
  exact ⟨h1.1, h2.1, h2.2.2.1⟩

/-- C2 counterexample: the creator edits the description of the
published course 1.  The stored course becomes pending_review with
`requiresReapproval = true` as the claim says, but the course is then
**absent** from the learner-facing listing, its detail read returns
NotFound, and enrollment is rejected — refuting "remains visible … and
remains enrollable". -/
theorem c2_counterexample :
    ((dbEdited.findCourse 1).map Course.status = some .pendingReview)
    ∧ ((dbEdited.findCourse 1).map Course.requiresReapproval = some true)
    ∧ getCoursesMatches dbEdited = []
    ∧ getCourse dbEdited 1 = .error ⟨404, "Course not found"⟩
    ∧ (enrollInCourse dbEdited 6 1 42).2
        = .error ⟨400, "Course is not available for enrollment"⟩ :=
  ⟨by rfl, by rfl, by rfl, by rfl, by rfl⟩

/-- C2 (amended): editing a core content field
(title/description/category/level) of a published course stores it as
pending_review with `requiresReapproval = true`, after which the course
is **no longer** returned by the learner-facing published listing or
detail read and is **not** enrollable — enrollment fails with the
InvalidState error "Course is not available for enrollment". -/
theorem c2_edit_published_hides_course (db : DB) (uid cid : Nat)
    (body : UpdateCourseBody) (uploadOk : Bool) (course : Course)
    (hc : db.findCourse cid = some course)
    (howner : course.creator = uid)
    (hpub : course.status = .published)
    (hcore : (jsTruthy body.title || jsTruthy body.description
      || jsTruthy body.category || jsTruthy body.level) = true) :
    updateCourse db uid cid body none uploadOk
      = (db.saveCourse (pendingAfterEdit course body),
         .ok (pendingAfterEdit course body))
    ∧ (db.saveCourse (pendingAfterEdit course body)).findCourse cid
        = some (pendingAfterEdit course body)
    ∧ (pendingAfterEdit course body).status = .pendingReview
    ∧ (pendingAfterEdit course body).requiresReapproval = true
    ∧ (∀ x, x ∈ getCoursesMatches (db.saveCourse (pendingAfterEdit course body))
        → x.id ≠ cid)
    ∧ getCourse (db.saveCourse (pendingAfterEdit course body)) cid
        = .error ⟨404, "Course not found"⟩
    ∧ (∀ uid2 u2 now,
        (db.saveCourse (pendingAfterEdit course body)).findUser uid2 = some u2 →
        (u2.isBlocked || u2.accountStatus == "blocked") = false →
        u2.restrictedCourses.contains cid = false →
        enrollInCourse (db.saveCourse (pendingAfterEdit course body)) uid2 cid now
          = (db.saveCourse (pendingAfterEdit course body),
             .error ⟨400, "Course is not available for enrollment"⟩)) := by
  subst howner
  have hcid : course.id = cid := by
    simpa using List.find?_some hc
  have hfc : (db.saveCourse (pendingAfterEdit course body)).findCourse cid
      = some (pendingAfterEdit course body) :=
    findCourse_saveCourse db cid course _ hc rfl
  have hrejb : ((applyCourseBody course body).status
      == CourseStatus.rejected) = false := by
    show (course.status == CourseStatus.rejected) = false
    rw [hpub]
    rfl
  have hpubb : (course.status == CourseStatus.published) = true := by
    rw [hpub]
    rfl
  refine ⟨?_, hfc, rfl, rfl, ?_, ?_, ?_⟩
  · simp only [updateCourse, hc]
    rw [if_neg (by simp)]
    simp only [hrejb, Bool.false_eq_true, if_false, hpubb, Bool.true_and,
      hcore, if_true, pendingAfterEdit]
  · intro x hx hxid
    rcases List.mem_filter.mp hx with ⟨hxmem, hxpred⟩
    rcases List.mem_map.mp hxmem with ⟨y, _, hxy⟩
    by_cases hyid : (y.id == (pendingAfterEdit course body).id) = true
    · rw [if_pos hyid] at hxy
      subst hxy
      simp [pendingAfterEdit, applyCourseBody] at hxpred
    · rw [if_neg hyid] at hxy
      subst hxy
      exact hyid (by
        have hc4id : (pendingAfterEdit course body).id = course.id := rfl
        rw [hc4id, hcid]
        simpa using hxid)
  · have hnone : (db.saveCourse (pendingAfterEdit course body)).courses.find?
        (fun c => c.id == cid && c.status == CourseStatus.published
          && c.isActive) = none := by
      rw [List.find?_eq_none]
      intro x hxmem
      rcases List.mem_map.mp hxmem with ⟨y, _, hxy⟩
      by_cases hyid : (y.id == (pendingAfterEdit course body).id) = true
      · rw [if_pos hyid] at hxy
        subst hxy
        simp [pendingAfterEdit, applyCourseBody]
      · rw [if_neg hyid] at hxy
        subst hxy
        intro hpred
        simp only [Bool.and_eq_true] at hpred
        apply absurd hpred.1.1
        intro h1
        exact hyid (by
          have hc4id : (pendingAfterEdit course body).id = course.id := rfl
          rw [hc4id, hcid]
          exact h1)
    simp only [getCourse, hnone]
  · intro uid2 u2 now hu2 hb hr
    have hne : ((pendingAfterEdit course body).status
        != CourseStatus.published) = true := rfl
    simp only [enrollInCourse, hu2, hb, Bool.false_eq_true, if_false, hr,
      hfc, hne, if_true]

/-- Witness for C2 (amended): concrete published course edited by its
creator; afterwards the detail read is NotFound and Max cannot
enroll. -/
theorem c2_witness :
    updateCourse dbPub 10 1 bodyDesc none true
      = (dbPub.saveCourse (pendingAfterEdit courseMain bodyDesc),
         .ok (pendingAfterEdit courseMain bodyDesc))
    ∧ getCourse (dbPub.saveCourse (pendingAfterEdit courseMain bodyDesc)) 1
        = .error ⟨404, "Course not found"⟩
    ∧ enrollInCourse (dbPub.saveCourse (pendingAfterEdit courseMain bodyDesc)) 6 1 42
        = (dbPub.saveCourse (pendingAfterEdit courseMain bodyDesc),
           .error ⟨400, "Course is not available for enrollment"⟩) := by
  have h := c2_edit_published_hides_course dbPub 10 1 bodyDesc true courseMain
    (by rfl) (by rfl) (by rfl) (by rfl)
  exact ⟨h.1, h.2.2.2.2.2.1, h.2.2.2.2.2.2 6 userMax 42 (by rfl) (by rfl) (by rfl)⟩

/-- C5 counterexample: `reviewCourse` — one of the two admin approval
endpoints — refuses to approve a pending_review course (it only
accepts submitted), leaving the status pending_review; and
`approveCourse` leaves a stored rejection reason in place when it
publishes.  Both refute the claim as stated for "every admin approval
endpoint". -/
theorem c5_counterexample :
    reviewCourse dbPR 9 1 "approve" none
      = (dbPR, .error ⟨400, "Course is not in submitted status"⟩)
    ∧ ((reviewCourse dbPR 9 1 "approve" none).1.findCourse 1).map Course.status
        = some .pendingReview
    ∧ ((approveCourse dbSubmittedReason 9 1).1.findCourse 1).map
        Course.rejectionReason = some (some "old reason")
    ∧ ((approveCourse dbSubmittedReason 9 1).1.findCourse 1).map Course.status
        = some .published :=
  ⟨by rfl, by rfl, by rfl, by rfl⟩

/-- C5 (amended): `approveCourse` publishes a submitted or
pending_review course, records the reviewer, clears
`requiresReapproval` and the modification reason but leaves the stored
rejection reason untouched; `reviewCourse` with action approve
publishes only a **submitted** course, clearing the rejection reason
but leaving `requiresReapproval` untouched, and fails with InvalidState
on a pending_review course. -/
theorem c5_admin_approval_endpoints (db : DB) (aid cid : Nat)
    (course : Course) (r : Option String)
    (hc : db.findCourse cid = some course) :
    ((course.status = .submitted ∨ course.status = .pendingReview) →
      approveCourse db aid cid
        = (db.saveCourse
            { course with
              status := .published
              reviewedBy := some aid
              requiresReapproval := false
              modificationReason := none },
           .ok { course with
              status := .published
              reviewedBy := some aid
              requiresReapproval := false
              modificationReason := none })
      ∧ ({ course with
           status := .published
           reviewedBy := some aid
           requiresReapproval := false
           modificationReason := none } : Course).rejectionReason
          = course.rejectionReason)
    ∧ (course.status = .submitted →
      reviewCourse db aid cid "approve" r
        = (db.saveCourse
            { course with
              status := .published
              rejectionReason := none
              reviewedBy := some aid },
           .ok { course with
              status := .published
              rejectionReason := none
              reviewedBy := some aid })
      ∧ ({ course with
           status := .published
           rejectionReason := none
           reviewedBy := some aid } : Course).requiresReapproval
          = course.requiresReapproval)
    ∧ (course.status = .pendingReview →
      reviewCourse db aid cid "approve" r
        = (db, .error ⟨400, "Course is not in submitted status"⟩)) := by
  refine ⟨?_, ?_, ?_⟩
  · intro hst
    refine ⟨?_, rfl⟩
    simp only [approveCourse, hc]
    rw [if_neg (by
      rcases hst with h | h <;> rw [h] <;> simp)]
  · intro hst
    refine ⟨?_, rfl⟩
    simp only [reviewCourse, hc]
    rw [if_neg (by decide)]
    rw [if_neg (by rw [hst]; simp)]
    rw [if_pos (by decide)]
  · intro hst
    simp only [reviewCourse, hc]
    rw [if_neg (by decide)]
    rw [if_pos (by rw [hst]; rfl)]

/-- Witness for C5 (amended): `approveCourse` publishes the submitted
course keeping its old rejection reason; `reviewCourse` rejects the
pending_review course. -/
theorem c5_witness :
    approveCourse dbSubmittedReason 9 1
      = (dbSubmittedReason.saveCourse
          { courseSubmittedReason with
            status := .published
            reviewedBy := some 9
            requiresReapproval := false
            modificationReason := none },
         .ok { courseSubmittedReason with
            status := .published
            reviewedBy := some 9
            requiresReapproval := false
            modificationReason := none })
    ∧ reviewCourse dbPR 9 1 "approve" none
        = (dbPR, .error ⟨400, "Course is not in submitted status"⟩) := by
  have h1 := (c5_admin_approval_endpoints dbSubmittedReason 9 1
    courseSubmittedReason none (by rfl)).1 (Or.inl (by rfl))
  have h3 := (c5_admin_approval_endpoints dbPR 9 1 coursePending none
    (by rfl)).2.2 (by rfl)
  exact ⟨h1.1, h3⟩

/-- Core compaction argument: erasing a member `x` from a duplicate-free
1..n order list and decrementing every order above `x` yields a
duplicate-free 1..(n-1) order list. -/
theorem dense_erase_compact (os : List Nat) (x n : Nat)
    (hmem : x ∈ os) (hd : denseOrders os n) :
    denseOrders ((os.erase x).map (fun o => if x < o then o - 1 else o))
      (n - 1) := by
  obtain ⟨hnd, hiff⟩ := hd
  have hx := (hiff x).mp hmem
  constructor
  · refine List.Nodup.map_on ?_ (hnd.erase x)
    intro a ha b hb hab
    rw [hnd.mem_erase_iff] at ha hb
    have ha2 := (hiff a).mp ha.2
    have hb2 := (hiff b).mp hb.2
    have hax : a ≠ x := ha.1
    have hbx : b ≠ x := hb.1
    split at hab <;> split at hab <;> omega
  · intro k
    constructor
    · intro hk
      rcases List.mem_map.mp hk with ⟨a, ha, rfl⟩
      rw [hnd.mem_erase_iff] at ha
      have ha2 := (hiff a).mp ha.2
      have hax : a ≠ x := ha.1
      split <;> omega
    · intro hk
      by_cases hlt : k < x
      · refine List.mem_map.mpr ⟨k, ?_, ?_⟩
        · rw [hnd.mem_erase_iff]
          exact ⟨by omega, (hiff k).mpr (by omega)⟩
        · rw [if_neg (by omega)]
      · refine List.mem_map.mpr ⟨k + 1, ?_, ?_⟩
        · rw [hnd.mem_erase_iff]
          exact ⟨by omega, (hiff (k + 1)).mpr (by omega)⟩
        · rw [if_pos (by omega)]
          omega

/-- Removing the unique lesson with a given id from a course's lesson
list removes exactly the first (unique, by order-nodup) occurrence of
its order value. -/
theorem filter_ne_map_order_erase (L : List Lesson) (l : Lesson)
    (hnd : (L.map (fun x => x.order)).Nodup) :
    L.filter (fun x => x.id == l.id) = [l] →
    (L.filter (fun x => x.id != l.id)).map (fun x => x.order)
      = (L.map (fun x => x.order)).erase l.order := by
  induction L with
  | nil => intro hid; simp at hid
  | cons a rest ih =>
    intro hid
    have hnd2 : (a.order :: rest.map (fun x => x.order)).Nodup := by
      simpa only [List.map_cons] using hnd
    have hnds := List.nodup_cons.mp hnd2
    by_cases ha : (a.id == l.id) = true
    · have hcons : a :: rest.filter (fun x => x.id == l.id) = [l] := by
        simpa [List.filter_cons, ha] using hid
      have ha2 : a = l := (List.cons.injEq _ _ _ _).mp hcons |>.1
      have hrest : rest.filter (fun x => x.id == l.id) = [] :=
        (List.cons.injEq _ _ _ _).mp hcons |>.2
      subst ha2
      have hall : ∀ x ∈ rest, (x.id != a.id) = true := by
        intro x hx
        have hnm : ¬ (x.id == a.id) = true := by
          intro hxx
          have hmx : x ∈ rest.filter (fun y => y.id == a.id) :=
            List.mem_filter.mpr ⟨hx, hxx⟩
          rw [hrest] at hmx
          simp at hmx
        simpa using hnm
      have hfr : rest.filter (fun x => x.id != a.id) = rest :=
        List.filter_eq_self.mpr hall
      simp only [List.filter_cons, bne_self_eq_false, Bool.false_eq_true,
        if_false, hfr, List.map_cons, List.erase_cons_head]
    · have hid2 : rest.filter (fun x => x.id == l.id) = [l] := by
        simpa [List.filter_cons, ha] using hid
      have hlr : l ∈ rest := by
        have hml : l ∈ rest.filter (fun x => x.id == l.id) := by
          rw [hid2]; simp
        exact (List.mem_filter.mp hml).1
      have hane : a.order ≠ l.order := by
        intro he
        apply hnds.1
        rw [he]
        exact List.mem_map.mpr ⟨l, hlr, rfl⟩
      simp only [List.filter_cons, List.map_cons]
      rw [if_pos (by simpa using ha)]
      rw [List.erase_cons_tail (by simpa using hane)]
      simp only [List.map_cons]
      rw [ih hnds.2 hid2]

/-- The orders of a course after `lesson.deleteOne()`: the remaining
lessons of the course, each order above the deleted one decremented. -/
theorem courseOrders_deleteLessonDoc (db : DB) (l : Lesson) (cid : Nat)
    (hlc : l.course = cid) :
    courseOrders (deleteLessonDoc db l) cid
      = ((db.lessons.filter (fun x => x.id != l.id)).filter
          (fun x => x.course == cid)).map
          (fun x => if l.order < x.order then x.order - 1 else x.order) := by
  have hgc : ∀ x : Lesson,
      ((if x.course == l.course && decide (l.order < x.order)
        then { x with order := x.order - 1 } else x) : Lesson).course
      = x.course := by
    intro x
    split <;> rfl
  have hfc : (db.lessons.filter (fun x => x.id != l.id)).filter
      (fun x => ((if x.course == l.course && decide (l.order < x.order)
        then { x with order := x.order - 1 } else x) : Lesson).course == cid)
      = (db.lessons.filter (fun x => x.id != l.id)).filter
        (fun x => x.course == cid) :=
    List.filter_congr (fun x _ => by rw [hgc x])
  show ((( db.lessons.filter (fun x => x.id != l.id)).map (fun x =>
      if x.course == l.course && decide (l.order < x.order)
      then { x with order := x.order - 1 } else x)).filter
      (fun x => x.course == cid)).map (fun x => x.order) = _
  rw [List.filter_map]
  simp only [Function.comp_def]
  rw [hfc]
  rw [List.map_map]
  simp only [Function.comp_def]
  refine List.map_congr_left ?_
  intro x hx
  have hxc : (x.course == cid) = true := (List.mem_filter.mp hx).2
  have hxl : (x.course == l.course) = true := by
    rw [hlc]; exact hxc
  show ((if x.course == l.course && decide (l.order < x.order)
      then { x with order := x.order - 1 } else x) : Lesson).order
      = if l.order < x.order then x.order - 1 else x.order
  rw [hxl, Bool.true_and]
  by_cases hord : l.order < x.order
  · rw [if_pos (by simpa using hord), if_pos hord]
  · rw [if_neg (by simpa using hord), if_neg hord]

/-- C8: the pre-save guard rejects a duplicate order within a course
(store unchanged), a fresh-id insert that passes the guard keeps the
course's orders duplicate-free, and deleting a lesson from a course
whose orders are a dense 1..n sequence leaves the remaining orders a
dense 1..(n-1) sequence — every order above the deleted one is
decremented by one. -/
theorem c8_lesson_orders (db : DB) (cid n : Nat) (l newL : Lesson) :
    (lessonOrderConflict db newL = true →
      saveNewLesson db newL
        = (db, .error ⟨400, "Lesson with order " ++ toString newL.order
            ++ " already exists in this course"⟩))
    ∧ (lessonOrderConflict db newL = false →
       (∀ x ∈ db.lessons, x.id ≠ newL.id) →
       (courseOrders db newL.course).Nodup →
       saveNewLesson db newL
         = ({ db with lessons := db.lessons ++ [newL] }, .ok newL)
       ∧ (courseOrders { db with lessons := db.lessons ++ [newL] }
           newL.course).Nodup)
    ∧ (l ∈ db.lessons → l.course = cid →
       db.lessons.filter (fun x => x.id == l.id) = [l] →
       denseOrders (courseOrders db cid) n →
       denseOrders (courseOrders (deleteLessonDoc db l) cid) (n - 1)) := by
  refine ⟨?_, ?_, ?_⟩
  · intro hconf
    simp only [saveNewLesson, hconf, if_true]
  · intro hconf hfresh hnd
    refine ⟨by simp only [saveNewLesson, hconf, Bool.false_eq_true, if_false], ?_⟩
    have hnotin : newL.order ∉ courseOrders db newL.course := by
      intro hmem
      rcases List.mem_map.mp hmem with ⟨x, hx, hxo⟩
      rcases List.mem_filter.mp hx with ⟨hxdb, hxc⟩
      have : lessonOrderConflict db newL = true := by
        refine List.any_eq_true.mpr ⟨x, hxdb, ?_⟩
        have h1 : (x.course == newL.course) = true := hxc
        have h2 : (x.order == newL.order) = true := by simpa using hxo
        have h3 : (x.id != newL.id) = true := by
          simpa using fun he => hfresh x hxdb he
        rw [h1, h2, h3]
        rfl
      rw [hconf] at this
      exact absurd this (by simp)
    show ((db.lessons ++ [newL]).filter
      (fun x => x.course == newL.course)).map (fun x => x.order) |>.Nodup
    rw [List.filter_append]
    rw [(by simp : ([newL].filter (fun x => x.course == newL.course)) = [newL])]
    rw [List.map_append]
    refine List.Nodup.append hnd (by simp) ?_
    intro o ho hsing
    rcases (by simpa using hsing : o = newL.order) with rfl
    exact hnotin ho
  · intro hmem hlc hid hdense
    rw [courseOrders_deleteLessonDoc db l cid hlc]
    have hswap : (db.lessons.filter (fun x => x.id != l.id)).filter
        (fun x => x.course == cid)
        = (db.lessons.filter (fun x => x.course == cid)).filter
          (fun x => x.id != l.id) := by
      rw [List.filter_filter, List.filter_filter]
      exact List.filter_congr (fun x _ => Bool.and_comm _ _)
    rw [hswap]
    have hL : courseOrders db cid
        = (db.lessons.filter (fun x => x.course == cid)).map
          (fun x => x.order) := rfl
    have hndL : ((db.lessons.filter (fun x => x.course == cid)).map
        (fun x => x.order)).Nodup := by
      rw [← hL]; exact hdense.1
    have hidL : (db.lessons.filter (fun x => x.course == cid)).filter
        (fun x => x.id == l.id) = [l] := by
      rw [List.filter_filter]
      rw [List.filter_congr (fun x _ => Bool.and_comm _ _)]
      rw [← List.filter_filter]
      rw [hid]
      simp [hlc]
    have hmemL : l ∈ db.lessons.filter (fun x => x.course == cid) :=
      List.mem_filter.mpr ⟨hmem, by simp [hlc]⟩
    have hdec : ((db.lessons.filter (fun x => x.course == cid)).filter
        (fun x => x.id != l.id)).map
        (fun x => if l.order < x.order then x.order - 1 else x.order)
        = (((db.lessons.filter (fun x => x.course == cid)).filter
            (fun x => x.id != l.id)).map (fun x => x.order)).map
          (fun o => if l.order < o then o - 1 else o) := by
      rw [List.map_map]
      rfl
    rw [hdec]
    rw [filter_ne_map_order_erase _ l hndL hidL]
    have hmemo : l.order ∈ (db.lessons.filter
        (fun x => x.course == cid)).map (fun x => x.order) :=
      List.mem_map.mpr ⟨l, hmemL, rfl⟩
    exact dense_erase_compact _ l.order n hmemo (by rw [← hL] at hndL ⊢; exact hdense)

/-- Witness for C8: inserting a second order-2 lesson into course 1 is
rejected; deleting the order-2 lesson from the dense 1,2,3 course
leaves a dense 1..2 order list. -/
theorem c8_witness :
    saveNewLesson dbOrders ⟨30, 1, 2, 10, true⟩
      = (dbOrders,
         .error ⟨400, "Lesson with order 2 already exists in this course"⟩)
    ∧ denseOrders (courseOrders (deleteLessonDoc dbOrders lessonOrd2) 1) 2 := by
  have h := c8_lesson_orders dbOrders 1 3 lessonOrd2 ⟨30, 1, 2, 10, true⟩
  have hdense : denseOrders (courseOrders dbOrders 1) 3 := by
    have he : courseOrders dbOrders 1 = [1, 2, 3] := rfl
    rw [he]
    exact ⟨by decide, fun k => by simp; omega⟩
  exact ⟨h.1 (by rfl), h.2.2 (by decide) (by rfl) (by rfl) hdense⟩

end Micro
